import Mathlib

/-!
Verification of the mandali orchestration engine (src/mandali.py) against its
natural-language specification.  Each Python function relevant to the frozen
claims is shallowly embedded as an executable Lean definition operating on
`String` / `List Char`, with the filesystem and the external agent runtime
modelled explicitly where the code touches them.
-/

namespace Mandali

/-! ### ASCII string helpers shared by the embeddings

Python's `\s` / `str.strip()` whitespace class, ASCII case folding for
`re.IGNORECASE`, and Python's `needle in haystack` substring test. -/

/-- ASCII whitespace class used by Python's `\s` and `str.strip()`:
space, tab, newline, carriage return, vertical tab, form feed. -/
def isSpaceChar (c : Char) : Bool :=
  c = ' ' || c = '\t' || c = '\n' || c = '\x0d' || c = '\x0b' || c = '\x0c'

/-- ASCII lower-casing, modelling `re.IGNORECASE` on the ASCII pattern text. -/
def asciiLower (c : Char) : Char :=
  if 'A' ≤ c ∧ c ≤ 'Z' then Char.ofNat (c.toNat + 32) else c

/-- Python `str.strip()` on a character list. -/
def pyStrip (l : List Char) : List Char :=
  ((l.dropWhile isSpaceChar).reverse.dropWhile isSpaceChar).reverse

/-- Does `hay` start with `needle` (exact characters)? -/
def startsWithChars : List Char → List Char → Bool
  | [], _ => true
  | _ :: _, [] => false
  | a :: as, b :: bs => a = b && startsWithChars as bs

/-- Python's `needle in hay` substring containment on character lists. -/
def hasSubChars (needle : List Char) : List Char → Bool
  | [] => needle.isEmpty
  | c :: rest => startsWithChars needle (c :: rest) || hasSubChars needle rest

/-- Python's `needle in hay` substring containment on strings. -/
def strContains (hay needle : String) : Bool :=
  hasSubChars needle.data hay.data

/-- Python `line.split(':', 1)`: characters before the first `':'` and the
characters after it, or `none` when the line holds no `':'`. -/
def splitOnceColon : List Char → Option (List Char × List Char)
  | [] => none
  | c :: rest =>
    if c = ':' then some ([], rest)
    else (splitOnceColon rest).map (fun p => (c :: p.1, p.2))

/-- Python `content.split('\n')`: split on every newline, keeping empty
pieces; the empty string yields one empty piece. -/
def splitNewlines : List Char → List (List Char)
  | [] => [[]]
  | c :: rest =>
    if c = '\n' then [] :: splitNewlines rest
    else
      match splitNewlines rest with
      | l :: ls => (c :: l) :: ls
      | [] => [[c]]

/-! ### StatusMap (`satisfaction.txt`) — `read_all_satisfaction`, `check_all_satisfied`

`satisfaction.txt` holds `id: status` lines; parsing folds them into a
last-write-wins keyed map (Python `dict` semantics). -/

/-- Python `content[k] = v` on the parsed dict: replace the binding when the
key is present, append it otherwise. -/
def setStatus (m : List (String × String)) (k v : String) : List (String × String) :=
  if m.any (fun p => p.1 = k) then
    m.map (fun p => if p.1 = k then (k, v) else p)
  else m ++ [(k, v)]

/-- `read_all_satisfaction` (mandali.py:1722): split the file on newlines and,
for every line containing `':'`, bind `k.strip()` to `v.strip()` where `k`/`v`
come from `line.split(':', 1)`. -/
def read_all_satisfaction (content : String) : List (String × String) :=
  (splitNewlines content.data).foldl
    (fun m line =>
      match splitOnceColon line with
      | some (k, v) => setStatus m ⟨pyStrip k⟩ ⟨pyStrip v⟩
      | none => m)
    []

/-- `check_all_satisfied` (mandali.py:1733) over an already-parsed StatusMap:
false as soon as some expected agent is absent, or present with a value that
does not contain `"SATISFIED"` as a substring (Python `"SATISFIED" not in v`). -/
def check_all_satisfied (status : List (String × String)) (expected : List String) : Bool :=
  expected.all fun agentId =>
    match status.lookup agentId with
    | some v => strContains v "SATISFIED"
    | none => false

/-! ### Status-tag extraction — `extract_and_update_status`, reconciliation

The Python regex `SATISFACTION_STATUS\s*:\s*(SATISFIED|BLOCKED|PAUSED|WORKING)
(?:\s*-\s*(.*))?` with `re.IGNORECASE`, applied via `re.search` (leftmost
match wins).  The pattern has no ambiguous backtracking: each greedy `\s*` is
followed by a non-whitespace character, and the four alternatives start with
distinct letters, so the matcher below is exact. -/

/-- Match the pattern literal `lit` case-insensitively at the head of `s`,
returning the remaining input. -/
def matchLitCI : List Char → List Char → Option (List Char)
  | [], s => some s
  | _ :: _, [] => none
  | p :: ps, c :: cs =>
    if asciiLower c = asciiLower p then matchLitCI ps cs else none

/-- Greedy `\s*`. -/
def dropSpaces (s : List Char) : List Char := s.dropWhile isSpaceChar

/-- The alternation `(SATISFIED|BLOCKED|PAUSED|WORKING)`, alternatives tried in
pattern order; the returned keyword is the canonical upper-case form, matching
`match.group(1).upper()` in the Python code. -/
def matchKeyword (s : List Char) : Option (String × List Char) :=
  match matchLitCI "SATISFIED".data s with
  | some r => some ("SATISFIED", r)
  | none =>
    match matchLitCI "BLOCKED".data s with
    | some r => some ("BLOCKED", r)
    | none =>
      match matchLitCI "PAUSED".data s with
      | some r => some ("PAUSED", r)
      | none => (matchLitCI "WORKING".data s).map (fun r => ("WORKING", r))

/-- The optional reason group `(?:\s*-\s*(.*))?`: `some` with the captured
characters (up to the end of the line, `.` not matching `'\n'`) when the group
participates, `none` otherwise. -/
def matchReason (s : List Char) : Option (List Char) :=
  match dropSpaces s with
  | '-' :: u => some ((dropSpaces u).takeWhile (fun c => c ≠ '\n'))
  | _ => none

/-- Attempt the whole pattern at the current position.  Yields the upper-cased
status keyword (group 1) and the optional reason capture (group 2). -/
def matchStatusAt (s : List Char) : Option (String × Option (List Char)) :=
  match matchLitCI "SATISFACTION_STATUS".data s with
  | none => none
  | some r1 =>
    match dropSpaces r1 with
    | ':' :: r2 =>
      match matchKeyword (dropSpaces r2) with
      | none => none
      | some (kw, r3) => some (kw, matchReason r3)
    | _ => none

/-- `re.search`: try the pattern at every start position, leftmost match wins. -/
def searchStatusTag : List Char → Option (String × Option (List Char))
  | [] => matchStatusAt []
  | c :: rest =>
    match matchStatusAt (c :: rest) with
    | some r => some r
    | none => searchStatusTag rest

/-- `reason = (match.group(2) or "").split("\n")[0].strip()` (mandali.py:2149). -/
def reasonOfCapture (g2 : Option (List Char)) : String :=
  ⟨pyStrip ((g2.getD []).takeWhile (fun c => c ≠ '\n'))⟩

/-- The status value written to the StatusMap from a parsed tag
(mandali.py:2150–2157, identical in `_reconcile_satisfaction` 3924–3931). -/
def statusValueOf (st : String) (g2 : Option (List Char)) : String :=
  let reason := reasonOfCapture g2
  if st = "SATISFIED" then "SATISFIED"
  else if st = "BLOCKED" then
    (if reason ≠ "" then "BLOCKED - " ++ reason else "BLOCKED")
  else if st = "PAUSED" then "PAUSED - Awaiting human guidance"
  else "WORKING"

/-- `extract_and_update_status` (mandali.py:2143): the status value the poll
loop writes for the agent, defaulting to `"WORKING"` when no tag parses. -/
def extract_and_update_status (response : String) : String :=
  match searchStatusTag response.data with
  | some (st, g2) => statusValueOf st g2
  | none => "WORKING"

/-- The reconciliation probe's recorded value (`_reconcile_satisfaction`,
mandali.py:3897–3931): parse the first reply; on no reply or no parseable tag,
retry once with a stricter prompt; if both attempts fail to parse, record
`parsed_status or "WORKING"` with `parsed_status = None`, i.e. `"WORKING"`. -/
def reconcile_status_value (resp1 resp2 : String) : String :=
  match (if resp1 ≠ "" then searchStatusTag resp1.data else none) with
  | some (st, g2) => statusValueOf st g2
  | none =>
    match (if resp2 ≠ "" then searchStatusTag resp2.data else none) with
    | some (st, g2) => statusValueOf st g2
    | none => "WORKING"

/-! ### Worker poll loop — reply gating (`run_autonomous_agent`)

`if response and "NO_RESPONSE_NEEDED" not in response:` (mandali.py:2130):
the reply is appended to the Transcript and its status extracted exactly when
it is non-empty and does not *contain* the sentinel as a substring. -/

/-- Whether the poll loop appends the worker's reply to the Transcript and
updates the StatusMap from it (mandali.py:2130). -/
def should_append_reply (response : String) : Bool :=
  !response.isEmpty && !strContains response "NO_RESPONSE_NEEDED"

/-! ### Verification pass — `run_verification`

The auditor round-trip is modelled by its observable outcome: `none` when no
response arrived within the 300 s bound (`asyncio.TimeoutError`), `some r`
when the collected response text is `r`. -/

/-- Characters after the first occurrence of `pat`
(Python `s.split(pat, 1)[1]`; callers guard that `pat` occurs). -/
def afterFirst (pat : List Char) : List Char → List Char
  | [] => []
  | c :: rest =>
    if startsWithChars pat (c :: rest) then (c :: rest).drop pat.length
    else afterFirst pat rest

/-- `run_verification` (mandali.py:1809–1893) as a function of the auditor
outcome, returning `(passed, gap_report)`.  A timeout (`none`) returns
`(true, "")`; a response containing the PASS token passes; one containing the
GAPS_FOUND token fails with the stripped text after the token; anything else
is treated as a pass. -/
def run_verification (auditorResponse : Option String) : Bool × String :=
  match auditorResponse with
  | none => (true, "")
  | some response =>
    if strContains response "VERIFICATION_RESULT: PASS" then (true, "")
    else if strContains response "VERIFICATION_RESULT: GAPS_FOUND" then
      (false, ⟨pyStrip (afterFirst "VERIFICATION_RESULT: GAPS_FOUND".data response.data)⟩)
    else (true, "")

/-! ### Round rollover — `archive_conversation`, `reset_satisfaction`

The workspace directory is modelled as a partial map from path to file
content and modification time.  `archive_conversation` renames
`conversation.txt` to a timestamped archive and touches a fresh empty one;
`reset_satisfaction` rewrites `satisfaction.txt` to empty.  Neither mentions
`DecisionsTracker.md`. -/

structure FileData where
  content : String
  mtime : Nat
deriving DecidableEq, Repr

/-- The workspace as a map from path to file data (`none` = no such file). -/
abbrev FS := String → Option FileData

/-- `path.write_text(content)`: create or overwrite, refreshing the mtime. -/
def fsWrite (fs : FS) (path content : String) (now : Nat) : FS :=
  fun p => if p = path then some ⟨content, now⟩ else fs p

/-- `path.touch()`: create an empty file, or refresh the mtime of an existing
one without changing its content. -/
def fsTouch (fs : FS) (path : String) (now : Nat) : FS :=
  fun p =>
    if p = path then
      match fs path with
      | some fd => some ⟨fd.content, now⟩
      | none => some ⟨"", now⟩
    else fs p

/-- `src.rename(dst)`: the file moves, keeping content and mtime. -/
def fsRename (fs : FS) (src dst : String) : FS :=
  fun p => if p = dst then fs src else if p = src then none else fs p

/-- Workspace-relative path of the Transcript. -/
def conversationPath : String := "mandali-artifacts/conversation.txt"

/-- Workspace-relative path of the StatusMap. -/
def satisfactionPath : String := "mandali-artifacts/satisfaction.txt"

/-- Workspace-relative path of the DecisionLog. -/
def decisionsPath : String := "mandali-artifacts/DecisionsTracker.md"

/-- Archive file name built in `archive_conversation` (mandali.py:1753–1755):
`conversation-round-{round_number}-{timestamp}.txt` in the artifacts folder. -/
def archivePath (roundNumber : Nat) (timestamp : String) : String :=
  "mandali-artifacts/conversation-round-" ++ toString roundNumber ++ "-" ++ timestamp ++ ".txt"

/-- `archive_conversation` (mandali.py:1750): if the Transcript exists, rename
it to the timestamped archive; then touch a fresh `conversation.txt`. -/
def archive_conversation (fs : FS) (roundNumber : Nat) (timestamp : String) (now : Nat) : FS :=
  let fs1 :=
    if (fs conversationPath).isSome then
      fsRename fs conversationPath (archivePath roundNumber timestamp)
    else fs
  fsTouch fs1 conversationPath now

/-- `reset_satisfaction` (mandali.py:1761): rewrite `satisfaction.txt` empty. -/
def reset_satisfaction (fs : FS) (now : Nat) : FS :=
  fsWrite fs satisfactionPath "" now

/-- Round rollover as performed between verification rounds
(mandali.py:4910–4911): archive the Transcript, then clear the StatusMap. -/
def round_rollover (fs : FS) (roundNumber : Nat) (timestamp : String) (now : Nat) : FS :=
  reset_satisfaction (archive_conversation fs roundNumber timestamp now) now

/-! ### Stall/escalation state machine (`monitor_loop`, mandali.py:3622–3668)

One monitor iteration's stall handling, abstracted over wall-clock time.
`idle` is `now - conversation.txt mtime` as observed at the stall check
(`get_last_activity_time`, mandali.py:1742, reads the Transcript's mtime —
which the orchestrator's own nudge refreshes, since the nudge is appended to
`conversation.txt`).  A step receives `dt`, the seconds elapsed since the
previous stall check, and `extWrite`: `some a` when a worker (or human)
message was appended to the Transcript `a` seconds before this check, `none`
when nobody but the monitor itself wrote. -/

structure StallState where
  nudgeCount : Nat
  idle : Nat
deriving DecidableEq, Repr

inductive StallAction where
  | quiet
  | nudge
  | escalate
deriving DecidableEq, Repr

/-- One iteration of the inactivity branch of `monitor_loop`
(mandali.py:3622–3668) with `stall_timeout` and `max_nudges` as parameters:
on `idle_seconds > stall_timeout`, nudge (appending to the Transcript, hence
resetting its mtime) while `nudge_count < max_nudges`, else escalate and reset
the counter (the escalation broadcast is likewise appended, mandali.py:4039);
otherwise reset a positive counter to 0. -/
def monitor_stall_step (stallTimeout maxNudges dt : Nat) (extWrite : Option Nat)
    (s : StallState) : StallState × StallAction :=
  let idleNow :=
    match extWrite with
    | some a => a
    | none => s.idle + dt
  if stallTimeout < idleNow then
    if s.nudgeCount < maxNudges then
      (⟨s.nudgeCount + 1, 0⟩, StallAction.nudge)
    else
      (⟨0, 0⟩, StallAction.escalate)
  else
    (⟨if 0 < s.nudgeCount then 0 else s.nudgeCount, idleNow⟩, StallAction.quiet)

/-- Run `n` monitor iterations during total worker silence (no Transcript
writes except the monitor's own), each `dt` seconds apart; returns the final
state and the emitted actions in order. -/
def run_silent (stallTimeout maxNudges dt : Nat) (s : StallState) :
    Nat → StallState × List StallAction
  | 0 => (s, [])
  | n + 1 =>
    let step := monitor_stall_step stallTimeout maxNudges dt none s
    let rest := run_silent stallTimeout maxNudges dt step.1 n
    (rest.1, step.2 :: rest.2)

/-! ### Team assembly pipeline (`assemble_team`, `execute_merges`, mandali.py:1340–1671)

The persona registry is the Python `dict` keyed by persona id, modelled as an
ordered list of metadata records with pairwise-distinct ids.  File existence
of a persona's prompt file is tracked as a list of ids whose file currently
exists (generation creates it, drop/merge unlink it).  The dedup agent's
output — after the JSON validation in `deduplicate_personas` — is a list of
drop ids and a list of merge records; both are adversarially arbitrary here.
Whether the merge-agent session actually created the merged file is an oracle
`mergeCreated : Nat → Bool`, indexed by the merge record's position. -/

structure PersonaMeta where
  id : String
  name : String
  domain : String
  role : String
  mention : String
  filepath : String
deriving DecidableEq, Repr

structure TeamMember where
  id : String
  name : String
  promptFile : String
  dynamic : Bool
  domain : String
  role : String
  mention : String
deriving DecidableEq, Repr

structure MergeRec where
  sources : List String
  mergedName : String
deriving DecidableEq, Repr

/-- `drop_id in persona_registry`. -/
def regHas (reg : List PersonaMeta) (pid : String) : Bool :=
  reg.any (fun m => m.id = pid)

/-- `del persona_registry[pid]` (callers guard membership; deleting an absent
key is the identity here, matching the guarded call sites). -/
def regDelete (reg : List PersonaMeta) (pid : String) : List PersonaMeta :=
  reg.filter (fun m => m.id ≠ pid)

/-- The drop phase of `assemble_team` (mandali.py:1569–1574): for each
recommended id present in the registry, unlink its file and delete the key. -/
def apply_drops (reg : List PersonaMeta) (files : List String) (dropIds : List String) :
    List PersonaMeta × List String :=
  dropIds.foldl
    (fun acc did =>
      if regHas acc.1 did then (regDelete acc.1 did, acc.2.filter (fun f => f ≠ did))
      else acc)
    (reg, files)

/-- Python `s.replace(' ', '')`. -/
def removeSpaces (s : String) : String :=
  ⟨s.data.filter (fun c => c ≠ ' ')⟩

/-- Merged-persona metadata built deterministically in `execute_merges`
(mandali.py:1371–1385): id `merged-{s1}-{s2}`, name from the recommendation or
`Merged {primary.name}`, domain/role inherited from the first source. -/
def mergedMetaOf (s1 s2 : String) (rec : MergeRec) (primary : PersonaMeta) : PersonaMeta :=
  let mergedId := "merged-" ++ s1 ++ "-" ++ s2
  let stripped : String := ⟨pyStrip rec.mergedName.data⟩
  let mergedName := if stripped ≠ "" then stripped else "Merged " ++ primary.name
  { id := mergedId
    name := mergedName
    domain := primary.domain
    role := primary.role
    mention := "@" ++ removeSpaces mergedName
    filepath := "mandali-artifacts/dynamic-personas/" ++ mergedId ++ ".persona.md" }

/-- `execute_merges` (mandali.py:1340–1438).  The registry is read, never
written, during the loop; source files are unlinked as merges succeed.
Returns `(merged_metas, merged_source_ids, files)` where `files` is the
updated set of ids whose persona file still exists. -/
def execute_merges (reg : List PersonaMeta) (mergeCreated : Nat → Bool) :
    List MergeRec → Nat → List String → List PersonaMeta × List String × List String
  | [], _, files => ([], [], files)
  | rec :: rest, i, files =>
    let skip := execute_merges reg mergeCreated rest (i + 1) files
    match rec.sources with
    | s1 :: s2 :: _ =>
      -- source files must exist and their ids be registered (mandali.py:1359–1369)
      let pathsOk := [s1, s2].filter (fun sid => regHas reg sid && files.contains sid)
      if pathsOk.length < 2 then skip
      else
        match reg.find? (fun m => m.id = s1) with
        | none => skip
        | some primary =>
          let meta := mergedMetaOf s1 s2 rec primary
          if mergeCreated i then
            let consumedHere := [s1, s2].filter (fun sid => regHas reg sid)
            let files1 := files.filter (fun f => !(f = s1 || f = s2)) ++ [meta.id]
            let next := execute_merges reg mergeCreated rest (i + 1) files1
            (meta :: next.1, consumedHere ++ next.2.1, next.2.2)
          else skip
    | _ => skip

/-- Scope-keeper election (mandali.py:1587–1634): the first Scope-keeper whose
domain is the primary domain wins; every other Scope-keeper is removed from
the registry (their expertise is folded into the winner's prompt file, which
does not change the roster). -/
def elect_scope_keeper (primaryDomain : Option String) (reg : List PersonaMeta) :
    List PersonaMeta :=
  let winnerId :=
    (reg.find? (fun m => m.role = "Scope-keeper" && primaryDomain = some m.domain)).map
      (fun m => m.id)
  reg.filter (fun m => !(m.role = "Scope-keeper") || winnerId = some m.id)

/-- `domain_priority = {d['name']: i for i, d in enumerate(non_sw_domains)}`
with `.get(domain, 999)` (mandali.py:1638, 1644): index of the domain in the
ordered domain list (last occurrence wins, as in the dict comprehension),
999 when absent. -/
def priorityOf (domainNames : List String) (d : String) : Nat :=
  match (domainNames.enum.filter (fun p => p.2 = d)).getLast? with
  | some p => p.1
  | none => 999

/-- Stable descending insertion by a numeric key: an element is placed before
the first earlier-inserted element whose key is `≤` its own, reproducing
Python's stable `sort(key=..., reverse=True)`. -/
def insertDesc (key : PersonaMeta → Nat) (a : PersonaMeta) :
    List PersonaMeta → List PersonaMeta
  | [] => [a]
  | b :: l => if key b ≤ key a then a :: b :: l else b :: insertDesc key a l

/-- Stable descending sort by a numeric key. -/
def sortDesc (key : PersonaMeta → Nat) : List PersonaMeta → List PersonaMeta
  | [] => []
  | a :: l => insertDesc key a (sortDesc key l)

/-- The cap while-loop (mandali.py:1646–1649): while the registry exceeds the
cap and sorted critics remain, unlink and delete the next critic. -/
def cap_drop (cap : Nat) : List PersonaMeta → List PersonaMeta → List PersonaMeta
  | [], reg => reg
  | c :: rest, reg =>
    if cap < reg.length then cap_drop cap rest (regDelete reg c.id)
    else reg

/-- Cap enforcement (mandali.py:1636–1650): when the registry exceeds the cap,
sort its Critics by descending distance from the primary domain (stable, as
`list.sort(reverse=True)`) and drop them in that order until at the cap or out
of Critics. -/
def enforce_cap (cap : Nat) (domainNames : List String) (reg : List PersonaMeta) :
    List PersonaMeta :=
  if cap < reg.length then
    let critics := reg.filter (fun m => m.role = "Critic")
    let sorted := sortDesc (fun m => priorityOf domainNames m.domain) critics
    cap_drop cap sorted reg
  else reg

/-- `DYNAMIC_PERSONA_CAP` (mandali.py:1448). -/
def DYNAMIC_PERSONA_CAP : Nat := 6

/-- Final roster entry for a surviving synthesized persona (mandali.py:1653–1663). -/
def toDynamicMember (m : PersonaMeta) : TeamMember :=
  { id := m.id
    name := m.name
    promptFile := m.filepath
    dynamic := true
    domain := m.domain
    role := m.role
    mention := m.mention }

/-- The dedup → drop → merge → elect → cap → combine portion of
`assemble_team` (mandali.py:1563–1671), from the generated persona registry
and the (validated) dedup recommendations to the final roster.  `staticTeam`
is the list of default-roster members built earlier in `assemble_team`;
nothing in this pipeline reads or writes it until the final concatenation
`static_team + dynamic_team`. -/
def assemble_from_recs (staticTeam : List TeamMember) (reg : List PersonaMeta)
    (files : List String) (dropIds : List String) (mergeRecs : List MergeRec)
    (mergeCreated : Nat → Bool) (domainNames : List String) : List TeamMember :=
  let dropped := apply_drops reg files dropIds
  let merges := execute_merges dropped.1 mergeCreated mergeRecs 0 dropped.2
  let reg2 := merges.2.1.foldl (fun r sid => r.filter (fun m => m.id ≠ sid)) dropped.1
  let reg3 := reg2 ++ merges.1
  let reg4 := elect_scope_keeper domainNames.head? reg3
  let reg5 := enforce_cap DYNAMIC_PERSONA_CAP domainNames reg4
  staticTeam ++ reg5.map toDynamicMember

/-! ### Concrete inputs and invariants used by the theorems below -/

/-- Invariant maintained by the stall machine during worker silence with
iteration gaps no longer than the stall timeout: the nudge counter never
exceeds one, and a just-nudged state has a fresh Transcript mtime. -/
def stallInv (s : StallState) : Prop :=
  s.nudgeCount = 0 ∨ (s.nudgeCount = 1 ∧ s.idle = 0)

/-- Concrete synthesized-worker registry with eight personas but a single
Critic: cap enforcement runs out of Critics before reaching the cap. -/
def overflowRegistry : List PersonaMeta :=
  [⟨"doer-alpha", "A", "alpha", "Doer", "@A", "a.md"⟩,
   ⟨"critic-alpha", "B", "alpha", "Critic", "@B", "b.md"⟩,
   ⟨"scope-alpha", "C", "alpha", "Scope-keeper", "@C", "c.md"⟩,
   ⟨"doer-beta", "D", "beta", "Doer", "@D", "d.md"⟩,
   ⟨"doer-gamma", "E", "gamma", "Doer", "@E", "e.md"⟩,
   ⟨"doer-delta", "F", "delta", "Doer", "@F", "f.md"⟩,
   ⟨"doer-eps", "G", "eps", "Doer", "@G", "g.md"⟩,
   ⟨"doer-zeta", "H", "zeta", "Doer", "@H", "h.md"⟩]

/-- Concrete registry for exercising cap enforcement with enough Critics. -/
def cappedRegistry : List PersonaMeta :=
  [⟨"doer-a", "DA", "a", "Doer", "@DA", "da.md"⟩,
   ⟨"critic-a", "CA", "a", "Critic", "@CA", "ca.md"⟩,
   ⟨"critic-b", "CB", "b", "Critic", "@CB", "cb.md"⟩,
   ⟨"doer-b", "DB", "b", "Doer", "@DB", "db.md"⟩]

/-! ## Theorems -/

/-- C1 (counterexample): the claim "`check_all_satisfied` returns true iff
every roster id maps to *exactly* `\"SATISFIED\"`, a substring match must not
count" is false.  With the satisfaction file holding `w1: UNSATISFIED`, the
sole expected agent's value is `"UNSATISFIED"`, not `"SATISFIED"`, yet
`check_all_satisfied` returns true, because mandali.py:1737 tests
`"SATISFIED" not in status[agent_id]` — a substring test. -/
theorem c1_counterexample :
    check_all_satisfied (read_all_satisfaction "w1: UNSATISFIED") ["w1"] = true
    ∧ (read_all_satisfaction "w1: UNSATISFIED").lookup "w1" = some "UNSATISFIED"
    ∧ "UNSATISFIED" ≠ "SATISFIED" := by decide

/-- C1 (amended): for every StatusMap and every expected roster,
`check_all_satisfied` returns true iff every expected id has an entry whose
value *contains* `"SATISFIED"` as a substring (Python `in`), not necessarily
exactly `"SATISFIED"`. -/
theorem c1_theorem (status : List (String × String)) (expected : List String) :
    check_all_satisfied status expected = true ↔
      ∀ aid ∈ expected, ∃ v, status.lookup aid = some v ∧ strContains v "SATISFIED" = true := by
  unfold check_all_satisfied
  rw [List.all_eq_true]
  constructor
  · intro h aid ha
    have := h aid ha
    cases hl : status.lookup aid with
    | none => rw [hl] at this; exact absurd this (by simp)
    | some v => exact ⟨v, rfl, by rw [hl] at this; exact this⟩
  · intro h aid ha
    obtain ⟨v, hv, hs⟩ := h aid ha
    rw [hv]
    exact hs

/-- C10: for an empty expected roster, `check_all_satisfied` is vacuously true
for every StatusMap content, so the monitor loop's victory check
(mandali.py:3565) succeeds immediately when no workers are expected. -/
theorem c10_theorem (status : List (String × String)) :
    check_all_satisfied status [] = true := rfl

/-- C3: a reply with no parseable `SATISFACTION_STATUS` tag always records
`"WORKING"`, never `"SATISFIED"` — both in the poll loop's
`extract_and_update_status` and in the reconciliation probe after its single
retry (two unparseable or empty replies). -/
theorem c3_theorem (r r1 r2 : String)
    (h : searchStatusTag r.data = none) (h1 : searchStatusTag r1.data = none)
    (h2 : searchStatusTag r2.data = none) :
    extract_and_update_status r = "WORKING" ∧ reconcile_status_value r1 r2 = "WORKING" := by
  constructor
  · unfold extract_and_update_status
    rw [h]
  · unfold reconcile_status_value
    have e1 : (if r1 ≠ "" then searchStatusTag r1.data else none) = none := by
      split <;> simp [h1]
    have e2 : (if r2 ≠ "" then searchStatusTag r2.data else none) = none := by
      split <;> simp [h2]
    rw [e1, e2]

/-- C3 (witness): concrete tag-free replies all resolve to `"WORKING"`. -/
theorem c3_witness :
    extract_and_update_status "All phases look complete to me." = "WORKING"
    ∧ reconcile_status_value "Everything is in a good state." "Sounds good." = "WORKING" :=
  c3_theorem _ _ _ (by decide) (by decide) (by decide)

/-- C4: status-tag extraction is case- and whitespace-tolerant: the three spec
inputs each parse to status `BLOCKED` with reason `"db down"` and are recorded
in the StatusMap as `"BLOCKED - db down"`. -/
theorem c4_theorem :
    extract_and_update_status "SATISFACTION_STATUS: blocked - db down\n" = "BLOCKED - db down"
    ∧ extract_and_update_status "Satisfaction_status:BLOCKED-db down" = "BLOCKED - db down"
    ∧ extract_and_update_status "SATISFACTION_STATUS : BLOCKED - db down" = "BLOCKED - db down"
    ∧ searchStatusTag "SATISFACTION_STATUS: blocked - db down\n".data
        = some ("BLOCKED", some "db down".data)
    ∧ searchStatusTag "Satisfaction_status:BLOCKED-db down".data
        = some ("BLOCKED", some "db down".data)
    ∧ searchStatusTag "SATISFACTION_STATUS : BLOCKED - db down".data
        = some ("BLOCKED", some "db down".data) := by decide

/-- C8 (counterexample): the claim "a reply is appended iff it is non-empty
and is not *exactly* the sentinel" is false: this concrete reply is non-empty
and differs from `"NO_RESPONSE_NEEDED"`, yet the poll loop does not append
it, because mandali.py:2130 tests substring containment. -/
theorem c8_counterexample :
    should_append_reply
      "Reviewed the changes. NO_RESPONSE_NEEDED beyond noting the schema update." = false
    ∧ "Reviewed the changes. NO_RESPONSE_NEEDED beyond noting the schema update." ≠ ""
    ∧ "Reviewed the changes. NO_RESPONSE_NEEDED beyond noting the schema update."
        ≠ "NO_RESPONSE_NEEDED" := by decide

/-- C8 (amended): a worker reply is appended to the Transcript (and its status
extracted) iff it is non-empty and does not *contain* `"NO_RESPONSE_NEEDED"`
as a substring. -/
theorem c8_theorem (r : String) :
    should_append_reply r = true ↔ r ≠ "" ∧ strContains r "NO_RESPONSE_NEEDED" = false := by
  unfold should_append_reply
  rw [Bool.and_eq_true, Bool.not_eq_true', Bool.not_eq_true', Bool.eq_false_iff]
  simp only [ne_eq, String.isEmpty_iff]

/-- C9: when the auditor session produces no response within the timeout
bound, `run_verification` returns a pass with an empty gap report, so
completion is never blocked on an unresponsive auditor. -/
theorem c9_theorem : run_verification none = (true, "") := rfl

/-- Frame lemma: `fsWrite` leaves every other path unchanged. -/
theorem fsWrite_at_other (fs : FS) (path c : String) (now : Nat) (p : String) (h : p ≠ path) :
    fsWrite fs path c now p = fs p := if_neg h

/-- `fsWrite` at the written path yields the new content and mtime. -/
theorem fsWrite_at_path (fs : FS) (path c : String) (now : Nat) :
    fsWrite fs path c now path = some ⟨c, now⟩ := if_pos rfl

/-- Frame lemma: `fsTouch` leaves every other path unchanged. -/
theorem fsTouch_at_other (fs : FS) (path : String) (now : Nat) (p : String) (h : p ≠ path) :
    fsTouch fs path now p = fs p := if_neg h

/-- `fsTouch` on a missing file creates it empty. -/
theorem fsTouch_at_path_none (fs : FS) (path : String) (now : Nat) (h : fs path = none) :
    fsTouch fs path now path = some ⟨"", now⟩ := by
  unfold fsTouch
  rw [if_pos rfl, h]

/-- `fsTouch` on an existing file keeps its content, refreshing the mtime. -/
theorem fsTouch_at_path_some (fs : FS) (path : String) (now : Nat) (fd : FileData)
    (h : fs path = some fd) :
    fsTouch fs path now path = some ⟨fd.content, now⟩ := by
  unfold fsTouch
  rw [if_pos rfl, h]

/-- `fsRename` moves the source's data to the destination. -/
theorem fsRename_at_dst (fs : FS) (src dst : String) :
    fsRename fs src dst dst = fs src := if_pos rfl

/-- Frame lemma: `fsRename` leaves unrelated paths unchanged. -/
theorem fsRename_at_other (fs : FS) (src dst p : String) (h1 : p ≠ dst) (h2 : p ≠ src) :
    fsRename fs src dst p = fs p := by
  unfold fsRename
  rw [if_neg h1, if_neg h2]

/-- C7: round rollover (archiving round N's Transcript and starting round N+1)
leaves the DecisionLog entry — content and mtime — exactly as it was, starts a
fresh empty Transcript, clears the StatusMap, and preserves the archived
Transcript's content and mtime under the timestamped archive name.  The
hypotheses state that the timestamped archive name differs from the three
fixed artifact paths, which holds for every round number and timestamp. -/
theorem c7_theorem (fs : FS) (r : Nat) (t : String) (now : Nat)
    (h1 : archivePath r t ≠ decisionsPath)
    (h2 : archivePath r t ≠ conversationPath)
    (h3 : archivePath r t ≠ satisfactionPath) :
    round_rollover fs r t now decisionsPath = fs decisionsPath
    ∧ round_rollover fs r t now conversationPath = some ⟨"", now⟩
    ∧ round_rollover fs r t now satisfactionPath = some ⟨"", now⟩
    ∧ ∀ fd, fs conversationPath = some fd →
        round_rollover fs r t now (archivePath r t) = some fd := by
  have hds : decisionsPath ≠ satisfactionPath := by decide
  have hdc : decisionsPath ≠ conversationPath := by decide
  have hcs : conversationPath ≠ satisfactionPath := by decide
  unfold round_rollover reset_satisfaction archive_conversation
  cases hconv : fs conversationPath with
  | none =>
    simp only [Option.isSome_none, Bool.false_eq_true, if_false]
    refine ⟨?_, ?_, ?_, ?_⟩
    · rw [fsWrite_at_other _ _ _ _ _ hds, fsTouch_at_other _ _ _ _ hdc]
    · rw [fsWrite_at_other _ _ _ _ _ hcs, fsTouch_at_path_none _ _ _ hconv]
    · rw [fsWrite_at_path]
    · intro fd hfd
      exact absurd hfd (by simp)
  | some fd0 =>
    simp only [Option.isSome_some, if_true]
    refine ⟨?_, ?_, ?_, ?_⟩
    · rw [fsWrite_at_other _ _ _ _ _ hds, fsTouch_at_other _ _ _ _ hdc,
        fsRename_at_other _ _ _ _ h1.symm hdc]
    · rw [fsWrite_at_other _ _ _ _ _ hcs]
      have hren : fsRename fs conversationPath (archivePath r t) conversationPath = none := by
        unfold fsRename
        rw [if_neg h2.symm, if_pos rfl]
      rw [fsTouch_at_path_none _ _ _ hren]
    · rw [fsWrite_at_path]
    · intro fd hfd
      rw [fsWrite_at_other _ _ _ _ _ h3, fsTouch_at_other _ _ _ _ h2,
        fsRename_at_dst, hconv, hfd]

/-- C7 (witness): the frame property at a concrete workspace, round number 1
and a concrete timestamp. -/
theorem c7_witness :
    (round_rollover
        (fun p => if p = decisionsPath then some ⟨"decision log", 3⟩
                  else if p = conversationPath then some ⟨"hello", 4⟩ else none)
        1 "2025_Oct_12-00_00_00" 9) decisionsPath
      = (fun p => if p = decisionsPath then some ⟨"decision log", 3⟩
                  else if p = conversationPath then some ⟨"hello", 4⟩ else none : FS)
          decisionsPath
    ∧ (round_rollover
        (fun p => if p = decisionsPath then some ⟨"decision log", 3⟩
                  else if p = conversationPath then some ⟨"hello", 4⟩ else none)
        1 "2025_Oct_12-00_00_00" 9) conversationPath = some ⟨"", 9⟩
    ∧ (round_rollover
        (fun p => if p = decisionsPath then some ⟨"decision log", 3⟩
                  else if p = conversationPath then some ⟨"hello", 4⟩ else none)
        1 "2025_Oct_12-00_00_00" 9) satisfactionPath = some ⟨"", 9⟩
    ∧ ∀ fd, (fun p => if p = decisionsPath then some ⟨"decision log", 3⟩
                  else if p = conversationPath then some ⟨"hello", 4⟩ else none : FS)
          conversationPath = some fd →
        (round_rollover
          (fun p => if p = decisionsPath then some ⟨"decision log", 3⟩
                    else if p = conversationPath then some ⟨"hello", 4⟩ else none)
          1 "2025_Oct_12-00_00_00" 9) (archivePath 1 "2025_Oct_12-00_00_00") = some fd :=
  c7_theorem _ 1 "2025_Oct_12-00_00_00" 9 (by decide) (by decide) (by decide)

/-- During silence, one monitor step preserves `stallInv` and never
escalates: the counter can only pass 1 if an iteration gap exceeds the stall
timeout, which the nudge's own Transcript append prevents. -/
theorem monitor_stall_step_silent (stallTimeout maxNudges dt : Nat)
    (hdt : dt ≤ stallTimeout) (hmax : 2 ≤ maxNudges) (s : StallState) (hs : stallInv s) :
    stallInv (monitor_stall_step stallTimeout maxNudges dt none s).1
    ∧ (monitor_stall_step stallTimeout maxNudges dt none s).2 ≠ StallAction.escalate := by
  rcases hs with h0 | ⟨h1, hidle⟩
  · unfold monitor_stall_step
    simp only [h0]
    split
    · rw [if_pos (by omega)]
      exact ⟨Or.inr ⟨rfl, rfl⟩, by simp⟩
    · exact ⟨Or.inl rfl, by simp⟩
  · unfold monitor_stall_step
    simp only [h1, hidle]
    rw [if_neg (by omega)]
    exact ⟨Or.inl (by simp), by simp⟩

/-- Escalation is unreachable along any silent run whose iteration gap stays
within the stall timeout. -/
theorem run_silent_no_escalation (stallTimeout maxNudges dt : Nat)
    (hdt : dt ≤ stallTimeout) (hmax : 2 ≤ maxNudges) :
    ∀ (n : Nat) (s : StallState), stallInv s →
      StallAction.escalate ∉ (run_silent stallTimeout maxNudges dt s n).2 := by
  intro n
  induction n with
  | zero => intro s _ h; exact absurd h (by simp [run_silent])
  | succ m ih =>
    intro s hs hmem
    obtain ⟨hinv, hact⟩ := monitor_stall_step_silent stallTimeout maxNudges dt hdt hmax s hs
    unfold run_silent at hmem
    simp only [List.mem_cons] at hmem
    rcases hmem with h | h
    · exact hact h.symm
    · exact ih _ hinv h

set_option maxRecDepth 4000 in
/-- C2: with the shipped constants (stall timeout 300 s, `max_nudges` 3, poll
interval 10 s, mandali.py:136/3511/3516) and total worker silence, the
monitor's stall machine never escalates — yet it does keep nudging (one nudge
per elapsed stall timeout, twice within 64 ticks).  Each nudge is appended to
`conversation.txt`, so `get_last_activity_time` reports fresh activity on the
next tick and `nudge_count` is reset to 0 (mandali.py:3666–3668) before it can
ever reach `max_nudges`; the escalation branch at mandali.py:3658 is dead in
exactly the scenario the claim describes. -/
theorem c2_theorem :
    (∀ n : Nat, StallAction.escalate ∉ (run_silent 300 3 10 ⟨0, 0⟩ n).2)
    ∧ StallAction.nudge ∈ (run_silent 300 3 10 ⟨0, 0⟩ 31).2
    ∧ (run_silent 300 3 10 ⟨0, 0⟩ 64).2.count StallAction.nudge = 2 := by
  refine ⟨fun n => run_silent_no_escalation 300 3 10 (by omega) (by omega) n _ (Or.inl rfl),
    ?_, ?_⟩
  · decide
  · decide

/-- C5: for every dedup-agent output — arbitrary drop ids and merge records,
including ones naming default workers — and every merge-success oracle, the
assembled roster is exactly the untouched default (static) team followed by
synthesized members only: no default worker is ever dropped, merged, or
altered by the pipeline. -/
theorem c5_theorem (staticTeam : List TeamMember) (reg : List PersonaMeta)
    (files : List String) (dropIds : List String) (mergeRecs : List MergeRec)
    (mergeCreated : Nat → Bool) (domainNames : List String) :
    (∃ dyn, assemble_from_recs staticTeam reg files dropIds mergeRecs mergeCreated domainNames
        = staticTeam ++ dyn ∧ ∀ m ∈ dyn, m.dynamic = true)
    ∧ ∀ p ∈ staticTeam,
        p ∈ assemble_from_recs staticTeam reg files dropIds mergeRecs mergeCreated domainNames := by
  constructor
  · refine ⟨_, rfl, ?_⟩
    intro m hm
    obtain ⟨x, _, hx⟩ := List.mem_map.mp hm
    rw [← hx]
    rfl
  · intro p hp
    exact List.mem_append_left _ hp

/-- `insertDesc` is a permutation-preserving insertion. -/
theorem insertDesc_perm (key : PersonaMeta → Nat) (a : PersonaMeta) (l : List PersonaMeta) :
    (insertDesc key a l).Perm (a :: l) := by
  induction l with
  | nil => exact List.Perm.refl _
  | cons b t ih =>
    unfold insertDesc
    split
    · exact List.Perm.refl _
    · exact (ih.cons b).trans (List.Perm.swap a b t)

/-- `sortDesc` permutes its input. -/
theorem sortDesc_perm (key : PersonaMeta → Nat) (l : List PersonaMeta) :
    (sortDesc key l).Perm l := by
  induction l with
  | nil => exact List.Perm.refl _
  | cons a t ih => exact (insertDesc_perm key a (sortDesc key t)).trans (ih.cons a)

/-- Membership in an insertion. -/
theorem mem_insertDesc (key : PersonaMeta → Nat) (a x : PersonaMeta) (l : List PersonaMeta) :
    x ∈ insertDesc key a l ↔ x = a ∨ x ∈ l := by
  rw [(insertDesc_perm key a l).mem_iff]
  simp

/-- Inserting into a descending list keeps it descending. -/
theorem pairwise_insertDesc (key : PersonaMeta → Nat) (a : PersonaMeta) (l : List PersonaMeta)
    (h : l.Pairwise (fun x y => key y ≤ key x)) :
    (insertDesc key a l).Pairwise (fun x y => key y ≤ key x) := by
  induction l with
  | nil => simp [insertDesc]
  | cons b t ih =>
    rw [List.pairwise_cons] at h
    obtain ⟨hb, ht⟩ := h
    unfold insertDesc
    split
    · rename_i hba
      rw [List.pairwise_cons]
      refine ⟨?_, List.pairwise_cons.mpr ⟨hb, ht⟩⟩
      intro y hy
      rcases List.mem_cons.mp hy with rfl | hyt
      · exact hba
      · exact le_trans (hb y hyt) hba
    · rename_i hba
      rw [List.pairwise_cons]
      refine ⟨?_, ih ht⟩
      intro y hy
      rcases (mem_insertDesc key a y t).mp hy with rfl | hyt
      · omega
      · exact hb y hyt

/-- `sortDesc` sorts by descending key. -/
theorem pairwise_sortDesc (key : PersonaMeta → Nat) (l : List PersonaMeta) :
    (sortDesc key l).Pairwise (fun x y => key y ≤ key x) := by
  induction l with
  | nil => simp [sortDesc]
  | cons a t ih => exact pairwise_insertDesc key a (sortDesc key t) ih

/-- Deleting a present key from an id-distinct registry removes exactly one
entry. -/
theorem regDelete_length (c : PersonaMeta) :
    ∀ reg : List PersonaMeta, (reg.map PersonaMeta.id).Nodup → c ∈ reg →
      (regDelete reg c.id).length + 1 = reg.length := by
  intro reg
  induction reg with
  | nil => intro _ hc; cases hc
  | cons x xs ih =>
    intro hn hc
    rw [List.map_cons, List.nodup_cons] at hn
    obtain ⟨hx, hxs⟩ := hn
    unfold regDelete
    rw [List.filter_cons]
    rcases List.mem_cons.mp hc with rfl | hcx
    · rw [if_neg (by simp)]
      have heq : xs.filter (fun m => decide (m.id ≠ c.id)) = xs := by
        rw [List.filter_eq_self]
        intro m hm
        simp only [decide_eq_true_eq]
        intro he
        exact hx (he ▸ List.mem_map_of_mem PersonaMeta.id hm)
      rw [heq, List.length_cons]
    · have hne : x.id ≠ c.id := by
        intro he
        exact hx (he ▸ List.mem_map_of_mem PersonaMeta.id hcx)
      rw [if_pos (by simpa using hne), List.length_cons, List.length_cons]
      have := ih hxs hcx
      unfold regDelete at this
      omega

/-- Deletion preserves distinctness of the registry's ids. -/
theorem regDelete_nodup (reg : List PersonaMeta) (pid : String)
    (hn : (reg.map PersonaMeta.id).Nodup) :
    ((regDelete reg pid).map PersonaMeta.id).Nodup :=
  hn.sublist ((List.filter_sublist reg).map PersonaMeta.id)

/-- Membership after a deletion. -/
theorem mem_regDelete (reg : List PersonaMeta) (pid : String) (m : PersonaMeta) :
    m ∈ regDelete reg pid ↔ m ∈ reg ∧ m.id ≠ pid := by
  unfold regDelete
  rw [List.mem_filter]
  simp

/-- The cap loop only ever removes entries. -/
theorem cap_drop_subset (cap : Nat) :
    ∀ (cs reg : List PersonaMeta) (m : PersonaMeta), m ∈ cap_drop cap cs reg → m ∈ reg := by
  intro cs
  induction cs with
  | nil => intro reg m hm; exact hm
  | cons c rest ih =>
    intro reg m hm
    unfold cap_drop at hm
    split at hm
    · exact ((mem_regDelete reg c.id m).mp (ih _ m hm)).1
    · exact hm

/-- Size of the registry after the cap loop: the loop stops exactly at the
cap, or when the critics run out — whichever comes first. -/
theorem cap_drop_length (cap : Nat) :
    ∀ (cs reg : List PersonaMeta), (reg.map PersonaMeta.id).Nodup →
      (∀ c ∈ cs, c ∈ reg) → (cs.map PersonaMeta.id).Nodup → cap ≤ reg.length →
      (cap_drop cap cs reg).length = max cap (reg.length - cs.length) := by
  intro cs
  induction cs with
  | nil =>
    intro reg _ _ _ hcap
    unfold cap_drop
    simp only [List.length_nil, Nat.sub_zero]
    omega
  | cons c rest ih =>
    intro reg hn hsub hcsn hcap
    have hcsn2 := hcsn
    rw [List.map_cons, List.nodup_cons] at hcsn2
    obtain ⟨hchd, hcstl⟩ := hcsn2
    unfold cap_drop
    split
    · rename_i hlt
      have hc : c ∈ reg := hsub c (List.mem_cons_self c rest)
      have hlen := regDelete_length c reg hn hc
      have hn' := regDelete_nodup reg c.id hn
      have hrest : ∀ c' ∈ rest, c' ∈ regDelete reg c.id := by
        intro c' hc'
        rw [mem_regDelete]
        refine ⟨hsub c' (List.mem_cons_of_mem c hc'), ?_⟩
        intro he
        exact hchd (he ▸ List.mem_map_of_mem PersonaMeta.id hc')
      have hcap' : cap ≤ (regDelete reg c.id).length := by omega
      rw [ih (regDelete reg c.id) hn' hrest hcstl hcap']
      simp only [List.length_cons]
      omega
    · rename_i hge
      simp only [List.length_cons]
      have hlen : reg.length = cap := by omega
      rw [hlen, Nat.max_eq_left (Nat.sub_le _ _)]

/-- The cap loop never removes a non-Critic. -/
theorem cap_drop_keeps_noncritics (cap : Nat) :
    ∀ (cs reg : List PersonaMeta), (reg.map PersonaMeta.id).Nodup →
      (∀ c ∈ cs, c ∈ reg ∧ c.role = "Critic") → (cs.map PersonaMeta.id).Nodup →
      ∀ m ∈ reg, ¬ m.role = "Critic" → m ∈ cap_drop cap cs reg := by
  intro cs
  induction cs with
  | nil => intro reg _ _ _ m hm _; exact hm
  | cons c rest ih =>
    intro reg hn hcs hcsn m hm hrole
    have hcsn2 := hcsn
    rw [List.map_cons, List.nodup_cons] at hcsn2
    obtain ⟨hchd, hcstl⟩ := hcsn2
    obtain ⟨hcreg, hcrole⟩ := hcs c (List.mem_cons_self c rest)
    unfold cap_drop
    split
    · apply ih (regDelete reg c.id) (regDelete_nodup reg c.id hn)
      · intro c' hc'
        obtain ⟨hc'reg, hc'role⟩ := hcs c' (List.mem_cons_of_mem c hc')
        refine ⟨(mem_regDelete reg c.id c').mpr ⟨hc'reg, ?_⟩, hc'role⟩
        intro he
        exact hchd (he ▸ List.mem_map_of_mem PersonaMeta.id hc')
      · exact hcstl
      · rw [mem_regDelete]
        refine ⟨hm, ?_⟩
        intro he
        have : m = c := List.inj_on_of_nodup_map hn hm hcreg he
        exact hrole (this ▸ hcrole)
      · exact hrole
    · exact hm

/-- A critic removed by the cap loop has a key at least as large as every
critic that survives it: the loop consumes a prefix of the descending-sorted
critics. -/
theorem cap_drop_order (cap : Nat) (key : PersonaMeta → Nat) :
    ∀ (cs reg : List PersonaMeta),
      cs.Pairwise (fun x y => key y ≤ key x) →
      (∀ c ∈ cs, c ∈ reg) → (reg.map PersonaMeta.id).Nodup → (cs.map PersonaMeta.id).Nodup →
      ∀ d ∈ reg, d ∉ cap_drop cap cs reg →
        ∀ s ∈ cap_drop cap cs reg, s ∈ cs → key s ≤ key d := by
  intro cs
  induction cs with
  | nil => intro reg _ _ _ _ d hd hdout; exact absurd hd hdout
  | cons c rest ih =>
    intro reg hpw hsub hn hcsn d hd hdout s hs hscs
    have hcsn2 := hcsn
    rw [List.map_cons, List.nodup_cons] at hcsn2
    obtain ⟨hchd, hcstl⟩ := hcsn2
    rw [List.pairwise_cons] at hpw
    obtain ⟨hcle, hpwrest⟩ := hpw
    have hcreg : c ∈ reg := hsub c (List.mem_cons_self c rest)
    unfold cap_drop at hdout hs
    split at hdout
    · rename_i hlt
      rw [if_pos hlt] at hs
      have hsne : s ≠ c := by
        intro he
        have hsreg' := cap_drop_subset cap rest (regDelete reg c.id) s hs
        rw [mem_regDelete] at hsreg'
        exact hsreg'.2 (by rw [he])
      have hsrest : s ∈ rest := by
        rcases List.mem_cons.mp hscs with he | h
        · exact absurd he hsne
        · exact h
      by_cases hdc : d.id = c.id
      · have hdceq : d = c := List.inj_on_of_nodup_map hn hd hcreg hdc
        rw [hdceq]
        exact hcle s hsrest
      · have hd' : d ∈ regDelete reg c.id := (mem_regDelete reg c.id d).mpr ⟨hd, hdc⟩
        refine ih (regDelete reg c.id) hpwrest ?_ (regDelete_nodup reg c.id hn) hcstl
          d hd' hdout s hs hsrest
        intro c' hc'
        rw [mem_regDelete]
        refine ⟨hsub c' (List.mem_cons_of_mem c hc'), ?_⟩
        intro he
        exact hchd (he ▸ List.mem_map_of_mem PersonaMeta.id hc')
    · rw [if_neg (by assumption)] at hs
      exact absurd hd hdout

/-- C6 (counterexample): the claim "the resulting set always has exactly the
cap count, or fewer if Critics run out" is false: a registry of eight
synthesized workers with a single Critic shrinks only to seven — *more* than
the cap of six — because the while-loop stops when the Critics run out. -/
theorem c6_counterexample :
    overflowRegistry.length = 8
    ∧ DYNAMIC_PERSONA_CAP = 6
    ∧ (enforce_cap DYNAMIC_PERSONA_CAP ["alpha"] overflowRegistry).length = 7
    ∧ ¬((enforce_cap DYNAMIC_PERSONA_CAP ["alpha"] overflowRegistry).length
          ≤ DYNAMIC_PERSONA_CAP) := by
  decide

/-- C6 (amended): when the synthesized set exceeds the cap (and its ids are
distinct, as dict keys are), cap enforcement removes Critics only, removes
lowest-priority Critics first (every removed worker's domain distance is at
least every surviving Critic's), and the result has exactly `max cap
(size - numCritics)` members: exactly the cap when enough Critics exist,
*more* than the cap when the Critics run out first. -/
theorem c6_theorem (cap : Nat) (domainNames : List String) (reg : List PersonaMeta)
    (hids : (reg.map PersonaMeta.id).Nodup) (hover : cap < reg.length) :
    (enforce_cap cap domainNames reg).length
      = max cap (reg.length - (reg.filter (fun m => m.role = "Critic")).length)
    ∧ (∀ m ∈ reg, ¬ m.role = "Critic" → m ∈ enforce_cap cap domainNames reg)
    ∧ (∀ m ∈ enforce_cap cap domainNames reg, m ∈ reg)
    ∧ (∀ d ∈ reg, d ∉ enforce_cap cap domainNames reg →
        d.role = "Critic" ∧
        ∀ s ∈ enforce_cap cap domainNames reg, s.role = "Critic" →
          priorityOf domainNames s.domain ≤ priorityOf domainNames d.domain) := by
  have hcaple : cap ≤ reg.length := le_of_lt hover
  set key := fun m : PersonaMeta => priorityOf domainNames m.domain with hkey
  set critics := reg.filter (fun m => m.role = "Critic") with hcritics
  set sorted := sortDesc key critics with hsorted
  have hres : enforce_cap cap domainNames reg = cap_drop cap sorted reg := by
    unfold enforce_cap
    rw [if_pos hover]
  have hperm : sorted.Perm critics := sortDesc_perm key critics
  have hcrit_roles : ∀ c ∈ critics, c.role = "Critic" := by
    intro c hc
    have := (List.mem_filter.mp hc).2
    simpa using this
  have hcrit_sub : ∀ c ∈ critics, c ∈ reg := fun c hc => (List.mem_filter.mp hc).1
  have hcrit_nodup : (critics.map PersonaMeta.id).Nodup :=
    hids.sublist ((List.filter_sublist reg).map PersonaMeta.id)
  have hsort_sub : ∀ c ∈ sorted, c ∈ reg := fun c hc => hcrit_sub c (hperm.mem_iff.mp hc)
  have hsort_nodup : (sorted.map PersonaMeta.id).Nodup :=
    ((hperm.map PersonaMeta.id).nodup_iff).mpr hcrit_nodup
  have hlen : sorted.length = critics.length := hperm.length_eq
  have hsort_crit : ∀ c ∈ sorted, c ∈ reg ∧ c.role = "Critic" :=
    fun c hc => ⟨hsort_sub c hc, hcrit_roles c (hperm.mem_iff.mp hc)⟩
  refine ⟨?_, ?_, ?_, ?_⟩
  · rw [hres, cap_drop_length cap sorted reg hids hsort_sub hsort_nodup hcaple, hlen]
  · intro m hm hrole
    rw [hres]
    exact cap_drop_keeps_noncritics cap sorted reg hids hsort_crit hsort_nodup m hm hrole
  · intro m hm
    rw [hres] at hm
    exact cap_drop_subset cap sorted reg m hm
  · intro d hd hdout
    rw [hres] at hdout
    have hdrole : d.role = "Critic" := by
      by_contra hnc
      exact hdout (cap_drop_keeps_noncritics cap sorted reg hids hsort_crit hsort_nodup d hd hnc)
    refine ⟨hdrole, ?_⟩
    intro s hs hsrole
    rw [hres] at hs
    have hsreg : s ∈ reg := cap_drop_subset cap sorted reg s hs
    have hscrit : s ∈ critics := List.mem_filter.mpr ⟨hsreg, by simpa using hsrole⟩
    have hssorted : s ∈ sorted := hperm.mem_iff.mpr hscrit
    exact cap_drop_order cap key sorted reg (pairwise_sortDesc key critics) hsort_sub hids
      hsort_nodup d hd hdout s hs hssorted

/-- C6 (witness): cap enforcement at cap 2 on a four-member registry with two
Critics, exercising every conjunct of the amended claim. -/
theorem c6_witness :
    (2 : Nat) < cappedRegistry.length
    ∧ ((enforce_cap 2 ["a", "b"] cappedRegistry).length
        = max 2 (cappedRegistry.length
            - (cappedRegistry.filter (fun m => m.role = "Critic")).length)
      ∧ (∀ m ∈ cappedRegistry, ¬ m.role = "Critic" → m ∈ enforce_cap 2 ["a", "b"] cappedRegistry)
      ∧ (∀ m ∈ enforce_cap 2 ["a", "b"] cappedRegistry, m ∈ cappedRegistry)
      ∧ (∀ d ∈ cappedRegistry, d ∉ enforce_cap 2 ["a", "b"] cappedRegistry →
          d.role = "Critic" ∧
          ∀ s ∈ enforce_cap 2 ["a", "b"] cappedRegistry, s.role = "Critic" →
            priorityOf ["a", "b"] s.domain ≤ priorityOf ["a", "b"] d.domain)) :=
  ⟨by decide, c6_theorem 2 ["a", "b"] cappedRegistry (by decide) (by decide)⟩

end Mandali
